import Mathlib

/-!
Verification of the camera and FPS-counter core of a small Go OpenGL demo
(files camera.go and main.go).

Floating-point scalars are modelled as exact reals (camera, which needs
trigonometry) and exact rationals (FPS counter, which is pure arithmetic
and so stays executable).  Machine `int` is modelled as `Int`.
-/

set_option autoImplicit false

namespace GLDemo

/-! ### FPS counter (main.go, `FPSCounter`) -/

/-- FPSCounter from main.go: `lastUpdate float64; frameCount int; fps float64`. -/
structure FPSCounter where
  lastUpdate : ℚ
  frameCount : ℤ
  fps : ℚ
deriving DecidableEq

/-- NewFPSCounter from main.go, parameterised by the current GLFW time. -/
def FPSCounter.new (t : ℚ) : FPSCounter :=
  { lastUpdate := t, frameCount := 0, fps := 0 }

/-- Update from main.go, with `glfw.GetTime()` passed in as `currentTime`.
Returns the updated counter together with the returned fps value. -/
def FPSCounter.update (fc : FPSCounter) (currentTime : ℚ) : FPSCounter × ℚ :=
  let fc1 : FPSCounter := { fc with frameCount := fc.frameCount + 1 }
  if currentTime - fc1.lastUpdate ≥ 1/4 then
    let fps : ℚ := (fc1.frameCount : ℚ) / (currentTime - fc1.lastUpdate)
    let newFps : ℚ := if fc1.fps = 0 then fps else fc1.fps * (9/10) + fps * (1/10)
    ({ lastUpdate := currentTime, frameCount := 0, fps := newFps }, newFps)
  else
    (fc1, fc1.fps)

/-- Folding a list of tick times through the update, keeping the state. -/
def FPSCounter.run (fc : FPSCounter) (ts : List ℚ) : FPSCounter :=
  ts.foldl (fun s t => (s.update t).1) fc

/-- Simulation of ticks at exactly 60 fps: tick `k` (1-based) happens at time
`k/60`, starting from a counter created at time 0. -/
def fpsSim : ℕ → FPSCounter
  | 0 => FPSCounter.new 0
  | n + 1 => ((fpsSim n).update ((n + 1 : ℕ) / 60)).1

/-! ### Vectors (mgl32.Vec3, the operations camera.go uses) -/

/-- A 3-component vector of (exact-real-modelled) float32 components. -/
structure Vec3 where
  x : ℝ
  y : ℝ
  z : ℝ

theorem Vec3.ext_iff {a b : Vec3} : a = b ↔ a.x = b.x ∧ a.y = b.y ∧ a.z = b.z := by
  cases a; cases b; simp

/-- Componentwise addition (mgl32 Vec3.Add). -/
def Vec3.add (a b : Vec3) : Vec3 := ⟨a.x + b.x, a.y + b.y, a.z + b.z⟩

/-- Componentwise subtraction (mgl32 Vec3.Sub). -/
def Vec3.sub (a b : Vec3) : Vec3 := ⟨a.x - b.x, a.y - b.y, a.z - b.z⟩

/-- Scalar multiplication (mgl32 Vec3.Mul). -/
def Vec3.mul (a : Vec3) (c : ℝ) : Vec3 := ⟨a.x * c, a.y * c, a.z * c⟩

/-- Dot product (mgl32 Vec3.Dot). -/
def Vec3.dot (a b : Vec3) : ℝ := a.x * b.x + a.y * b.y + a.z * b.z

/-- Cross product (mgl32 Vec3.Cross). -/
def Vec3.cross (a b : Vec3) : Vec3 :=
  ⟨a.y * b.z - a.z * b.y, a.z * b.x - a.x * b.z, a.x * b.y - a.y * b.x⟩

/-- Euclidean length (mgl32 Vec3.Len). -/
noncomputable def Vec3.len (a : Vec3) : ℝ := Real.sqrt (a.dot a)

/-- Normalization (mgl32 Vec3.Normalize: scale by the reciprocal length). -/
noncomputable def Vec3.normalize (a : Vec3) : Vec3 := a.mul (1 / a.len)

/-! ### Camera (camera.go) -/

/-- Camera state from camera.go. -/
structure Camera where
  Position : Vec3
  Front : Vec3
  Up : Vec3
  Right : Vec3
  WorldUp : Vec3
  Yaw : ℝ
  Pitch : ℝ
  MovementSpeed : ℝ
  MouseSens : ℝ
  firstMouse : Bool
  lastX : ℝ
  lastY : ℝ

/-- mgl32.DegToRad. -/
noncomputable def degToRad (angle : ℝ) : ℝ := angle * Real.pi / 180

/-- The local variable `front` of updateCameraVectors, before normalization. -/
noncomputable def frontRaw (yaw pitch : ℝ) : Vec3 :=
  ⟨Real.cos (degToRad yaw) * Real.cos (degToRad pitch),
   Real.sin (degToRad pitch),
   Real.sin (degToRad yaw) * Real.cos (degToRad pitch)⟩

/-- updateCameraVectors from camera.go. -/
noncomputable def updateCameraVectors (c : Camera) : Camera :=
  let f := (frontRaw c.Yaw c.Pitch).normalize
  let r := (f.cross c.WorldUp).normalize
  let u := (r.cross f).normalize
  { c with Front := f, Right := r, Up := u }

/-- The struct literal built inside NewCamera, before updateCameraVectors runs
(Go zero-values the fields the literal does not mention). -/
noncomputable def newCameraInit : Camera :=
  { Position := ⟨0, 0, 3⟩
    Front := ⟨0, 0, -1⟩
    Up := ⟨0, 0, 0⟩
    Right := ⟨0, 0, 0⟩
    WorldUp := ⟨0, 1, 0⟩
    Yaw := -90
    Pitch := 0
    MovementSpeed := 5/2
    MouseSens := 1/10
    firstMouse := true
    lastX := 0
    lastY := 0 }

/-- NewCamera from camera.go. -/
noncomputable def NewCamera : Camera := updateCameraVectors newCameraInit

/-- The two sequential pitch-constraint ifs of camera.go / main.go. -/
noncomputable def clampPitch (p : ℝ) : ℝ :=
  let p1 := if p > 89 then 89 else p
  if p1 < -89 then -89 else p1

/-- HandleMouseMovement from camera.go (the window argument is unused). -/
noncomputable def HandleMouseMovement (c : Camera) (xpos ypos : ℝ) : Camera :=
  if c.firstMouse then
    { c with lastX := xpos, lastY := ypos, firstMouse := false }
  else
    let xoffset := (xpos - c.lastX) * c.MouseSens
    let yoffset := (c.lastY - ypos) * c.MouseSens
    updateCameraVectors
      { c with lastX := xpos, lastY := ypos,
               Yaw := c.Yaw + xoffset,
               Pitch := clampPitch (c.Pitch + yoffset) }

/-- The inline cursor-position callback from main.go: same body, except the
first-sample branch does not return early and falls through. -/
noncomputable def cursorCallback (c : Camera) (xpos ypos : ℝ) : Camera :=
  let c0 := if c.firstMouse then
              { c with lastX := xpos, lastY := ypos, firstMouse := false }
            else c
  let xoffset := (xpos - c0.lastX) * c0.MouseSens
  let yoffset := (c0.lastY - ypos) * c0.MouseSens
  updateCameraVectors
    { c0 with lastX := xpos, lastY := ypos,
              Yaw := c0.Yaw + xoffset,
              Pitch := clampPitch (c0.Pitch + yoffset) }

/-- HandleKeyboard from camera.go with the four key states passed as booleans
(w/s/a/d are `GetKey == Press` for the respective keys); this is also the
inline movement block of main.go's render loop, which is the same code. -/
noncomputable def HandleKeyboard (c : Camera) (w s a d : Bool) (deltaTime : ℝ) : Camera :=
  let cameraSpeed := deltaTime * c.MovementSpeed
  let c1 := if w then { c with Position := c.Position.add (c.Front.mul cameraSpeed) } else c
  let c2 := if s then { c1 with Position := c1.Position.sub (c1.Front.mul cameraSpeed) } else c1
  let c3 := if a then { c2 with Position := c2.Position.sub (c2.Right.mul cameraSpeed) } else c2
  if d then { c3 with Position := c3.Position.add (c3.Right.mul cameraSpeed) } else c3

/-- Folding a list of cursor samples through HandleMouseMovement. -/
noncomputable def runMouse (c : Camera) (moves : List (ℝ × ℝ)) : Camera :=
  moves.foldl (fun s m => HandleMouseMovement s m.1 m.2) c

/-- Folding a list of cursor samples through the main.go callback. -/
noncomputable def runCallback (c : Camera) (moves : List (ℝ × ℝ)) : Camera :=
  moves.foldl (fun s m => cursorCallback s m.1 m.2) c

/-! ### Helper lemmas about the camera basis -/

lemma clampPitch_mem (p : ℝ) : -89 ≤ clampPitch p ∧ clampPitch p ≤ 89 := by
  by_cases h1 : p > 89
  · simp [clampPitch, h1]
    norm_num
  · by_cases h2 : p < -89
    · simp [clampPitch, h1, h2]
    · simp [clampPitch, h1, h2]
      exact ⟨le_of_not_lt h2, le_of_not_lt h1⟩

lemma cos_degToRad_pos {p : ℝ} (h1 : -89 ≤ p) (h2 : p ≤ 89) :
    0 < Real.cos (degToRad p) := by
  apply Real.cos_pos_of_mem_Ioo
  have hpi := Real.pi_pos
  constructor
  · show -(Real.pi / 2) < p * Real.pi / 180
    nlinarith
  · show p * Real.pi / 180 < Real.pi / 2
    nlinarith

lemma frontRaw_dot_self (y p : ℝ) : (frontRaw y p).dot (frontRaw y p) = 1 := by
  simp only [frontRaw, Vec3.dot]
  linear_combination (Real.cos (degToRad p)) ^ 2 * Real.sin_sq_add_cos_sq (degToRad y) +
    Real.sin_sq_add_cos_sq (degToRad p)

lemma frontRaw_len (y p : ℝ) : (frontRaw y p).len = 1 := by
  rw [Vec3.len, frontRaw_dot_self, Real.sqrt_one]

lemma normalize_of_len_one {a : Vec3} (h : a.len = 1) : a.normalize = a := by
  cases a with
  | mk ax ay az => simp [Vec3.normalize, Vec3.mul, h]

lemma frontRaw_cross_worldUp (y p : ℝ) :
    (frontRaw y p).cross ⟨0, 1, 0⟩ =
      ⟨-(Real.sin (degToRad y) * Real.cos (degToRad p)), 0,
        Real.cos (degToRad y) * Real.cos (degToRad p)⟩ := by
  simp only [frontRaw, Vec3.cross, Vec3.ext_iff]
  refine ⟨by ring, by ring, by ring⟩

lemma rightRaw_len {y p : ℝ} (hc : 0 < Real.cos (degToRad p)) :
    (Vec3.len ⟨-(Real.sin (degToRad y) * Real.cos (degToRad p)), 0,
        Real.cos (degToRad y) * Real.cos (degToRad p)⟩) = Real.cos (degToRad p) := by
  rw [Vec3.len, Vec3.dot]
  rw [show
      -(Real.sin (degToRad y) * Real.cos (degToRad p)) *
          -(Real.sin (degToRad y) * Real.cos (degToRad p)) +
        0 * 0 +
        Real.cos (degToRad y) * Real.cos (degToRad p) *
          (Real.cos (degToRad y) * Real.cos (degToRad p)) =
      Real.cos (degToRad p) ^ 2 by
    linear_combination (Real.cos (degToRad p)) ^ 2 * Real.sin_sq_add_cos_sq (degToRad y)]
  exact Real.sqrt_sq hc.le

lemma rightRaw_normalize {y p : ℝ} (hc : 0 < Real.cos (degToRad p)) :
    (Vec3.normalize ⟨-(Real.sin (degToRad y) * Real.cos (degToRad p)), 0,
        Real.cos (degToRad y) * Real.cos (degToRad p)⟩) =
      ⟨-Real.sin (degToRad y), 0, Real.cos (degToRad y)⟩ := by
  rw [Vec3.normalize, rightRaw_len hc, Vec3.mul, Vec3.ext_iff]
  have hne : Real.cos (degToRad p) ≠ 0 := hc.ne'
  refine ⟨by field_simp, by ring, by field_simp⟩

lemma right_cross_front (y p : ℝ) :
    (Vec3.cross ⟨-Real.sin (degToRad y), 0, Real.cos (degToRad y)⟩ (frontRaw y p)) =
      ⟨-(Real.cos (degToRad y) * Real.sin (degToRad p)), Real.cos (degToRad p),
        -(Real.sin (degToRad y) * Real.sin (degToRad p))⟩ := by
  simp only [frontRaw, Vec3.cross, Vec3.ext_iff]
  refine ⟨by ring, ?_, by ring⟩
  linear_combination Real.cos (degToRad p) * Real.sin_sq_add_cos_sq (degToRad y)

lemma upRaw_len (y p : ℝ) :
    (Vec3.len ⟨-(Real.cos (degToRad y) * Real.sin (degToRad p)), Real.cos (degToRad p),
        -(Real.sin (degToRad y) * Real.sin (degToRad p))⟩) = 1 := by
  rw [Vec3.len, Vec3.dot]
  rw [show
      -(Real.cos (degToRad y) * Real.sin (degToRad p)) *
          -(Real.cos (degToRad y) * Real.sin (degToRad p)) +
        Real.cos (degToRad p) * Real.cos (degToRad p) +
        -(Real.sin (degToRad y) * Real.sin (degToRad p)) *
          -(Real.sin (degToRad y) * Real.sin (degToRad p)) = 1 by
    linear_combination (Real.sin (degToRad p)) ^ 2 * Real.sin_sq_add_cos_sq (degToRad y) +
      Real.sin_sq_add_cos_sq (degToRad p)]
  exact Real.sqrt_one

/-- Closed form of the recomputed basis when `worldUp = (0,1,0)` and the pitch
angle has positive cosine. -/
lemma updateCameraVectors_basis {c : Camera} (hW : c.WorldUp = ⟨0, 1, 0⟩)
    (hc : 0 < Real.cos (degToRad c.Pitch)) :
    (updateCameraVectors c).Front = frontRaw c.Yaw c.Pitch ∧
    (updateCameraVectors c).Right =
      ⟨-Real.sin (degToRad c.Yaw), 0, Real.cos (degToRad c.Yaw)⟩ ∧
    (updateCameraVectors c).Up =
      ⟨-(Real.cos (degToRad c.Yaw) * Real.sin (degToRad c.Pitch)),
        Real.cos (degToRad c.Pitch),
        -(Real.sin (degToRad c.Yaw) * Real.sin (degToRad c.Pitch))⟩ := by
  have hF : (updateCameraVectors c).Front = frontRaw c.Yaw c.Pitch := by
    simp only [updateCameraVectors]
    exact normalize_of_len_one (frontRaw_len _ _)
  have hR : (updateCameraVectors c).Right =
      ⟨-Real.sin (degToRad c.Yaw), 0, Real.cos (degToRad c.Yaw)⟩ := by
    simp only [updateCameraVectors, hW, normalize_of_len_one (frontRaw_len c.Yaw c.Pitch)]
    rw [frontRaw_cross_worldUp, rightRaw_normalize hc]
  have hU : (updateCameraVectors c).Up =
      ⟨-(Real.cos (degToRad c.Yaw) * Real.sin (degToRad c.Pitch)),
        Real.cos (degToRad c.Pitch),
        -(Real.sin (degToRad c.Yaw) * Real.sin (degToRad c.Pitch))⟩ := by
    simp only [updateCameraVectors, hW, normalize_of_len_one (frontRaw_len c.Yaw c.Pitch)]
    rw [frontRaw_cross_worldUp, rightRaw_normalize hc, right_cross_front]
    exact normalize_of_len_one (upRaw_len _ _)
  exact ⟨hF, hR, hU⟩

lemma degToRad_neg90 : degToRad (-90) = -(Real.pi / 2) := by
  unfold degToRad; ring

lemma degToRad_zero : degToRad 0 = 0 := by
  unfold degToRad; ring

lemma cos_degToRad_neg90 : Real.cos (degToRad (-90)) = 0 := by
  rw [degToRad_neg90, Real.cos_neg, Real.cos_pi_div_two]

lemma sin_degToRad_neg90 : Real.sin (degToRad (-90)) = -1 := by
  rw [degToRad_neg90, Real.sin_neg, Real.sin_pi_div_two]

lemma cos_degToRad_zero : Real.cos (degToRad 0) = 1 := by
  rw [degToRad_zero, Real.cos_zero]

lemma sin_degToRad_zero : Real.sin (degToRad 0) = 0 := by
  rw [degToRad_zero, Real.sin_zero]

/-- The concrete basis of the freshly constructed camera. -/
lemma NewCamera_basis :
    NewCamera.Front = ⟨0, 0, -1⟩ ∧ NewCamera.Right = ⟨1, 0, 0⟩ ∧ NewCamera.Up = ⟨0, 1, 0⟩ := by
  have hc : 0 < Real.cos (degToRad newCameraInit.Pitch) := by
    show 0 < Real.cos (degToRad 0)
    rw [cos_degToRad_zero]; norm_num
  obtain ⟨hF, hR, hU⟩ := updateCameraVectors_basis (c := newCameraInit) rfl hc
  refine ⟨?_, ?_, ?_⟩
  · show (updateCameraVectors newCameraInit).Front = _
    rw [hF]
    show frontRaw (-90) 0 = _
    simp only [frontRaw, cos_degToRad_neg90, sin_degToRad_neg90, cos_degToRad_zero,
      sin_degToRad_zero, Vec3.ext_iff]
    norm_num
  · show (updateCameraVectors newCameraInit).Right = _
    rw [hR]
    show (⟨-Real.sin (degToRad (-90)), 0, Real.cos (degToRad (-90))⟩ : Vec3) = _
    simp only [cos_degToRad_neg90, sin_degToRad_neg90, Vec3.ext_iff]
    norm_num
  · show (updateCameraVectors newCameraInit).Up = _
    rw [hU]
    show (⟨-(Real.cos (degToRad (-90)) * Real.sin (degToRad 0)), Real.cos (degToRad 0),
      -(Real.sin (degToRad (-90)) * Real.sin (degToRad 0))⟩ : Vec3) = _
    simp only [cos_degToRad_neg90, sin_degToRad_neg90, cos_degToRad_zero, sin_degToRad_zero,
      Vec3.ext_iff]
    norm_num

/-! ### Projection lemmas: updateCameraVectors only rewrites the basis -/

@[simp] lemma ucv_Position (c : Camera) : (updateCameraVectors c).Position = c.Position := rfl

@[simp] lemma ucv_WorldUp (c : Camera) : (updateCameraVectors c).WorldUp = c.WorldUp := rfl

@[simp] lemma ucv_Yaw (c : Camera) : (updateCameraVectors c).Yaw = c.Yaw := rfl

@[simp] lemma ucv_Pitch (c : Camera) : (updateCameraVectors c).Pitch = c.Pitch := rfl

@[simp] lemma ucv_MovementSpeed (c : Camera) :
    (updateCameraVectors c).MovementSpeed = c.MovementSpeed := rfl

@[simp] lemma ucv_MouseSens (c : Camera) : (updateCameraVectors c).MouseSens = c.MouseSens := rfl

@[simp] lemma ucv_firstMouse (c : Camera) : (updateCameraVectors c).firstMouse = c.firstMouse := rfl

@[simp] lemma ucv_lastX (c : Camera) : (updateCameraVectors c).lastX = c.lastX := rfl

@[simp] lemma ucv_lastY (c : Camera) : (updateCameraVectors c).lastY = c.lastY := rfl

/-! ### Helper lemmas about mouse handling -/

lemma HandleMouseMovement_firstMouse (c : Camera) (x y : ℝ) :
    (HandleMouseMovement c x y).firstMouse = false := by
  unfold HandleMouseMovement
  by_cases hf : c.firstMouse = true
  · simp [hf]
  · simp [hf]

lemma HandleMouseMovement_pitch_range {c : Camera}
    (h : -89 ≤ c.Pitch ∧ c.Pitch ≤ 89) (x y : ℝ) :
    -89 ≤ (HandleMouseMovement c x y).Pitch ∧ (HandleMouseMovement c x y).Pitch ≤ 89 := by
  unfold HandleMouseMovement
  by_cases hf : c.firstMouse = true
  · simp only [hf, if_true]
    exact h
  · simp only [hf, if_false, Bool.not_eq_true] at *
    simp only [hf, Bool.false_eq_true, if_false, ucv_Pitch]
    exact clampPitch_mem _

lemma runMouse_pitch_range {c : Camera}
    (h : -89 ≤ c.Pitch ∧ c.Pitch ≤ 89) (moves : List (ℝ × ℝ)) :
    -89 ≤ (runMouse c moves).Pitch ∧ (runMouse c moves).Pitch ≤ 89 := by
  induction moves generalizing c with
  | nil => exact h
  | cons m rest ih => exact ih (HandleMouseMovement_pitch_range h m.1 m.2)

lemma cursorCallback_eq_of_tracking {c : Camera} (h : c.firstMouse = false) (x y : ℝ) :
    cursorCallback c x y = HandleMouseMovement c x y := by
  unfold cursorCallback HandleMouseMovement
  simp [h]

lemma updateCameraVectors_idem (c : Camera) :
    updateCameraVectors (updateCameraVectors c) = updateCameraVectors c := rfl

lemma cursorCallback_first_step (p : Vec3) (x y : ℝ) :
    cursorCallback { NewCamera with Position := p } x y =
      HandleMouseMovement { NewCamera with Position := p } x y := by
  have hNf : NewCamera.firstMouse = true := rfl
  have hcp : clampPitch NewCamera.Pitch = NewCamera.Pitch := by
    show clampPitch 0 = (0 : ℝ)
    norm_num [clampPitch]
  unfold cursorCallback HandleMouseMovement
  simp only [hNf, if_true, sub_self, zero_mul, add_zero, hcp]
  rfl

lemma run_eq_of_tracking {c : Camera} (h : c.firstMouse = false) (moves : List (ℝ × ℝ)) :
    runCallback c moves = runMouse c moves := by
  induction moves generalizing c with
  | nil => rfl
  | cons m rest ih =>
    show runCallback (cursorCallback c m.1 m.2) rest = runMouse (HandleMouseMovement c m.1 m.2) rest
    rw [cursorCallback_eq_of_tracking h]
    exact ih (HandleMouseMovement_firstMouse c m.1 m.2)

/-! ### Helper lemmas about keyboard movement -/

lemma HandleKeyboard_fields (c : Camera) (w s a d : Bool) (dt : ℝ) :
    (HandleKeyboard c w s a d dt).Front = c.Front ∧
    (HandleKeyboard c w s a d dt).Up = c.Up ∧
    (HandleKeyboard c w s a d dt).Right = c.Right ∧
    (HandleKeyboard c w s a d dt).WorldUp = c.WorldUp ∧
    (HandleKeyboard c w s a d dt).Yaw = c.Yaw ∧
    (HandleKeyboard c w s a d dt).Pitch = c.Pitch ∧
    (HandleKeyboard c w s a d dt).MovementSpeed = c.MovementSpeed ∧
    (HandleKeyboard c w s a d dt).MouseSens = c.MouseSens ∧
    (HandleKeyboard c w s a d dt).firstMouse = c.firstMouse ∧
    (HandleKeyboard c w s a d dt).lastX = c.lastX ∧
    (HandleKeyboard c w s a d dt).lastY = c.lastY := by
  cases w <;> cases s <;> cases a <;> cases d <;>
    exact ⟨rfl, rfl, rfl, rfl, rfl, rfl, rfl, rfl, rfl, rfl, rfl⟩

lemma HandleKeyboard_position (c : Camera) (w s a d : Bool) (dt : ℝ) :
    (HandleKeyboard c w s a d dt).Position =
      c.Position.add
        ((c.Front.mul
            (dt * c.MovementSpeed * ((if w then 1 else 0) - (if s then 1 else 0)))).add
          (c.Right.mul
            (dt * c.MovementSpeed * ((if d then 1 else 0) - (if a then 1 else 0))))) := by
  have key : ∀ (p f r : Vec3) (cf cr : ℝ), p.add ((f.mul cf).add (r.mul cr)) =
      ⟨p.x + f.x * cf + r.x * cr, p.y + f.y * cf + r.y * cr, p.z + f.z * cf + r.z * cr⟩ := by
    intro p f r cf cr
    simp only [Vec3.add, Vec3.mul, Vec3.ext_iff]
    refine ⟨by ring, by ring, by ring⟩
  cases w <;> cases s <;> cases a <;> cases d
  · show c.Position =
        c.Position.add ((c.Front.mul (dt * c.MovementSpeed * ((0 : ℝ) - 0))).add
          (c.Right.mul (dt * c.MovementSpeed * ((0 : ℝ) - 0))))
    rw [key, Vec3.ext_iff]
    refine ⟨by ring, by ring, by ring⟩
  · show c.Position.add (c.Right.mul (dt * c.MovementSpeed)) =
        c.Position.add ((c.Front.mul (dt * c.MovementSpeed * ((0 : ℝ) - 0))).add
          (c.Right.mul (dt * c.MovementSpeed * ((1 : ℝ) - 0))))
    rw [key, Vec3.ext_iff]
    simp only [Vec3.add, Vec3.mul]
    refine ⟨by ring, by ring, by ring⟩
  · show c.Position.sub (c.Right.mul (dt * c.MovementSpeed)) =
        c.Position.add ((c.Front.mul (dt * c.MovementSpeed * ((0 : ℝ) - 0))).add
          (c.Right.mul (dt * c.MovementSpeed * ((0 : ℝ) - 1))))
    rw [key, Vec3.ext_iff]
    simp only [Vec3.sub, Vec3.mul]
    refine ⟨by ring, by ring, by ring⟩
  · show (c.Position.sub (c.Right.mul (dt * c.MovementSpeed))).add
        (c.Right.mul (dt * c.MovementSpeed)) =
        c.Position.add ((c.Front.mul (dt * c.MovementSpeed * ((0 : ℝ) - 0))).add
          (c.Right.mul (dt * c.MovementSpeed * ((1 : ℝ) - 1))))
    rw [key, Vec3.ext_iff]
    simp only [Vec3.add, Vec3.sub, Vec3.mul]
    refine ⟨by ring, by ring, by ring⟩
  · show c.Position.sub (c.Front.mul (dt * c.MovementSpeed)) =
        c.Position.add ((c.Front.mul (dt * c.MovementSpeed * ((0 : ℝ) - 1))).add
          (c.Right.mul (dt * c.MovementSpeed * ((0 : ℝ) - 0))))
    rw [key, Vec3.ext_iff]
    simp only [Vec3.sub, Vec3.mul]
    refine ⟨by ring, by ring, by ring⟩
  · show (c.Position.sub (c.Front.mul (dt * c.MovementSpeed))).add
        (c.Right.mul (dt * c.MovementSpeed)) =
        c.Position.add ((c.Front.mul (dt * c.MovementSpeed * ((0 : ℝ) - 1))).add
          (c.Right.mul (dt * c.MovementSpeed * ((1 : ℝ) - 0))))
    rw [key, Vec3.ext_iff]
    simp only [Vec3.add, Vec3.sub, Vec3.mul]
    refine ⟨by ring, by ring, by ring⟩
  · show (c.Position.sub (c.Front.mul (dt * c.MovementSpeed))).sub
        (c.Right.mul (dt * c.MovementSpeed)) =
        c.Position.add ((c.Front.mul (dt * c.MovementSpeed * ((0 : ℝ) - 1))).add
          (c.Right.mul (dt * c.MovementSpeed * ((0 : ℝ) - 1))))
    rw [key, Vec3.ext_iff]
    simp only [Vec3.sub, Vec3.mul]
    refine ⟨by ring, by ring, by ring⟩
  · show ((c.Position.sub (c.Front.mul (dt * c.MovementSpeed))).sub
        (c.Right.mul (dt * c.MovementSpeed))).add (c.Right.mul (dt * c.MovementSpeed)) =
        c.Position.add ((c.Front.mul (dt * c.MovementSpeed * ((0 : ℝ) - 1))).add
          (c.Right.mul (dt * c.MovementSpeed * ((1 : ℝ) - 1))))
    rw [key, Vec3.ext_iff]
    simp only [Vec3.add, Vec3.sub, Vec3.mul]
    refine ⟨by ring, by ring, by ring⟩
  · show c.Position.add (c.Front.mul (dt * c.MovementSpeed)) =
        c.Position.add ((c.Front.mul (dt * c.MovementSpeed * ((1 : ℝ) - 0))).add
          (c.Right.mul (dt * c.MovementSpeed * ((0 : ℝ) - 0))))
    rw [key, Vec3.ext_iff]
    simp only [Vec3.add, Vec3.mul]
    refine ⟨by ring, by ring, by ring⟩
  · show (c.Position.add (c.Front.mul (dt * c.MovementSpeed))).add
        (c.Right.mul (dt * c.MovementSpeed)) =
        c.Position.add ((c.Front.mul (dt * c.MovementSpeed * ((1 : ℝ) - 0))).add
          (c.Right.mul (dt * c.MovementSpeed * ((1 : ℝ) - 0))))
    rw [key, Vec3.ext_iff]
    simp only [Vec3.add, Vec3.mul]
    refine ⟨by ring, by ring, by ring⟩
  · show (c.Position.add (c.Front.mul (dt * c.MovementSpeed))).sub
        (c.Right.mul (dt * c.MovementSpeed)) =
        c.Position.add ((c.Front.mul (dt * c.MovementSpeed * ((1 : ℝ) - 0))).add
          (c.Right.mul (dt * c.MovementSpeed * ((0 : ℝ) - 1))))
    rw [key, Vec3.ext_iff]
    simp only [Vec3.add, Vec3.sub, Vec3.mul]
    refine ⟨by ring, by ring, by ring⟩
  · show ((c.Position.add (c.Front.mul (dt * c.MovementSpeed))).sub
        (c.Right.mul (dt * c.MovementSpeed))).add (c.Right.mul (dt * c.MovementSpeed)) =
        c.Position.add ((c.Front.mul (dt * c.MovementSpeed * ((1 : ℝ) - 0))).add
          (c.Right.mul (dt * c.MovementSpeed * ((1 : ℝ) - 1))))
    rw [key, Vec3.ext_iff]
    simp only [Vec3.add, Vec3.sub, Vec3.mul]
    refine ⟨by ring, by ring, by ring⟩
  · show (c.Position.add (c.Front.mul (dt * c.MovementSpeed))).sub
        (c.Front.mul (dt * c.MovementSpeed)) =
        c.Position.add ((c.Front.mul (dt * c.MovementSpeed * ((1 : ℝ) - 1))).add
          (c.Right.mul (dt * c.MovementSpeed * ((0 : ℝ) - 0))))
    rw [key, Vec3.ext_iff]
    simp only [Vec3.add, Vec3.sub, Vec3.mul]
    refine ⟨by ring, by ring, by ring⟩
  · show ((c.Position.add (c.Front.mul (dt * c.MovementSpeed))).sub
        (c.Front.mul (dt * c.MovementSpeed))).add (c.Right.mul (dt * c.MovementSpeed)) =
        c.Position.add ((c.Front.mul (dt * c.MovementSpeed * ((1 : ℝ) - 1))).add
          (c.Right.mul (dt * c.MovementSpeed * ((1 : ℝ) - 0))))
    rw [key, Vec3.ext_iff]
    simp only [Vec3.add, Vec3.sub, Vec3.mul]
    refine ⟨by ring, by ring, by ring⟩
  · show ((c.Position.add (c.Front.mul (dt * c.MovementSpeed))).sub
        (c.Front.mul (dt * c.MovementSpeed))).sub (c.Right.mul (dt * c.MovementSpeed)) =
        c.Position.add ((c.Front.mul (dt * c.MovementSpeed * ((1 : ℝ) - 1))).add
          (c.Right.mul (dt * c.MovementSpeed * ((0 : ℝ) - 1))))
    rw [key, Vec3.ext_iff]
    simp only [Vec3.add, Vec3.sub, Vec3.mul]
    refine ⟨by ring, by ring, by ring⟩
  · show (((c.Position.add (c.Front.mul (dt * c.MovementSpeed))).sub
        (c.Front.mul (dt * c.MovementSpeed))).sub (c.Right.mul (dt * c.MovementSpeed))).add
        (c.Right.mul (dt * c.MovementSpeed)) =
        c.Position.add ((c.Front.mul (dt * c.MovementSpeed * ((1 : ℝ) - 1))).add
          (c.Right.mul (dt * c.MovementSpeed * ((1 : ℝ) - 1))))
    rw [key, Vec3.ext_iff]
    simp only [Vec3.add, Vec3.sub, Vec3.mul]
    refine ⟨by ring, by ring, by ring⟩

/-! ### Helper lemmas about the FPS counter -/

/-- Branch-explicit form of the update. -/
lemma FPSCounter.update_eq (fc : FPSCounter) (t : ℚ) :
    fc.update t =
      if t - fc.lastUpdate < 1/4 then
        ({ fc with frameCount := fc.frameCount + 1 }, fc.fps)
      else
        ({ lastUpdate := t, frameCount := 0,
           fps := if fc.fps = 0 then ((fc.frameCount : ℚ) + 1) / (t - fc.lastUpdate)
                  else fc.fps * (9/10) + ((fc.frameCount : ℚ) + 1) / (t - fc.lastUpdate) * (1/10) },
         if fc.fps = 0 then ((fc.frameCount : ℚ) + 1) / (t - fc.lastUpdate)
         else fc.fps * (9/10) + ((fc.frameCount : ℚ) + 1) / (t - fc.lastUpdate) * (1/10)) := by
  unfold FPSCounter.update
  by_cases h : t - fc.lastUpdate < 1/4
  · rw [if_neg (by simpa using not_le.mpr h), if_pos h]
  · rw [if_pos (by simpa using le_of_not_lt h), if_neg h]
    push_cast
    rfl

lemma FPSCounter.update_pos {fc : FPSCounter} (hn : 0 ≤ fc.frameCount) (hf : 0 < fc.fps)
    (t : ℚ) : 0 ≤ ((fc.update t).1).frameCount ∧ 0 < ((fc.update t).1).fps := by
  rw [FPSCounter.update_eq]
  by_cases h : t - fc.lastUpdate < 1/4
  · rw [if_pos h]
    refine ⟨?_, hf⟩
    show 0 ≤ fc.frameCount + 1
    omega
  · rw [if_neg h]
    have hd : (0 : ℚ) < t - fc.lastUpdate := by
      have := le_of_not_lt h
      linarith
    have hq : (0 : ℚ) ≤ (fc.frameCount : ℚ) := by exact_mod_cast hn
    have hinst : 0 < ((fc.frameCount : ℚ) + 1) / (t - fc.lastUpdate) := by positivity
    refine ⟨le_refl 0, ?_⟩
    show 0 < if fc.fps = 0 then ((fc.frameCount : ℚ) + 1) / (t - fc.lastUpdate)
             else fc.fps * (9/10) + ((fc.frameCount : ℚ) + 1) / (t - fc.lastUpdate) * (1/10)
    rw [if_neg hf.ne']
    have h1 : 0 < fc.fps * (9/10 : ℚ) := mul_pos hf (by norm_num)
    have h2 : 0 < ((fc.frameCount : ℚ) + 1) / (t - fc.lastUpdate) * (1/10 : ℚ) :=
      mul_pos hinst (by norm_num)
    linarith

lemma FPSCounter.run_pos {fc : FPSCounter} (hn : 0 ≤ fc.frameCount) (hf : 0 < fc.fps)
    (ts : List ℚ) : 0 < (fc.run ts).fps := by
  induction ts generalizing fc with
  | nil => exact hf
  | cons t rest ih =>
    obtain ⟨hn1, hf1⟩ := FPSCounter.update_pos hn hf t
    exact ih hn1 hf1

/-! ### Claim theorems -/

/-- C1: for every sequence of cursor-move calls starting from the camera state
produced by NewCamera, the pitch lies in `[-89, 89]` after every call. -/
theorem pitch_always_clamped (moves : List (ℝ × ℝ)) :
    -89 ≤ (runMouse NewCamera moves).Pitch ∧ (runMouse NewCamera moves).Pitch ≤ 89 := by
  refine runMouse_pitch_range ?_ moves
  constructor
  · show (-89 : ℝ) ≤ 0
    norm_num
  · show (0 : ℝ) ≤ 89
    norm_num

/-- C2: the first cursor-move call after construction, for any coordinates,
only records the coordinates as baseline and clears the first-sample flag,
leaving yaw, pitch and position (and everything else) unchanged; and no
cursor-move call ever sets the flag again. -/
theorem first_cursor_sample_only_records_baseline :
    (∀ x y : ℝ, HandleMouseMovement NewCamera x y =
        { NewCamera with lastX := x, lastY := y, firstMouse := false }) ∧
    (∀ (c : Camera) (x y : ℝ), (HandleMouseMovement c x y).firstMouse = false) := by
  constructor
  · intro x y
    have hNf : NewCamera.firstMouse = true := rfl
    unfold HandleMouseMovement
    simp only [hNf, if_true]
  · exact HandleMouseMovement_firstMouse

/-- C3: each FPS-meter update increments the frame count; before 0.25 s have
elapsed since the window start it returns the smoothed fps unchanged, and at a
window boundary it computes the instantaneous fps over the window, seeds the
smoothed value on the first window and otherwise applies the 0.9/0.1
exponential moving average, then resets the count and the window start. -/
theorem fps_update_matches_spec (fc : FPSCounter) (t : ℚ) :
    fc.update t =
      if t - fc.lastUpdate < 1/4 then
        ({ fc with frameCount := fc.frameCount + 1 }, fc.fps)
      else
        ({ lastUpdate := t, frameCount := 0,
           fps := if fc.fps = 0 then ((fc.frameCount : ℚ) + 1) / (t - fc.lastUpdate)
                  else fc.fps * (9/10) + ((fc.frameCount : ℚ) + 1) / (t - fc.lastUpdate) * (1/10) },
         if fc.fps = 0 then ((fc.frameCount : ℚ) + 1) / (t - fc.lastUpdate)
         else fc.fps * (9/10) + ((fc.frameCount : ℚ) + 1) / (t - fc.lastUpdate) * (1/10)) :=
  FPSCounter.update_eq fc t

/-- C4: the basis recomputation normalizes the spherical-coordinate front
vector, takes right as the normalized cross of front with worldUp and up as
the normalized cross of right with front; at yaw -90 and pitch 0 the
resulting front is exactly (0, 0, -1). -/
theorem basis_recomputation_formula :
    (∀ c : Camera,
        (updateCameraVectors c).Front =
          (Vec3.normalize
            ⟨Real.cos (degToRad c.Yaw) * Real.cos (degToRad c.Pitch),
              Real.sin (degToRad c.Pitch),
              Real.sin (degToRad c.Yaw) * Real.cos (degToRad c.Pitch)⟩) ∧
        (updateCameraVectors c).Right =
          ((updateCameraVectors c).Front.cross c.WorldUp).normalize ∧
        (updateCameraVectors c).Up =
          ((updateCameraVectors c).Right.cross (updateCameraVectors c).Front).normalize) ∧
    (∀ c : Camera, (updateCameraVectors { c with Yaw := -90, Pitch := 0 }).Front = ⟨0, 0, -1⟩) := by
  constructor
  · exact fun c => ⟨rfl, rfl, rfl⟩
  · intro c
    show (frontRaw (-90) 0).normalize = _
    rw [normalize_of_len_one (frontRaw_len _ _)]
    simp only [frontRaw, cos_degToRad_neg90, sin_degToRad_neg90, cos_degToRad_zero,
      sin_degToRad_zero, Vec3.ext_iff]
    norm_num

/-- C5: keyboard handling changes only the position, translating it by
`speed = movementSpeed * deltaTime` along front (forward additive, back
subtractive) and along right (strafe), summing simultaneous presses with no
normalization; with the initial camera basis, a forward move has strictly
smaller squared displacement than a forward-plus-right diagonal move. -/
theorem keyboard_moves_only_position :
    (∀ (c : Camera) (w s a d : Bool) (dt : ℝ),
        (HandleKeyboard c w s a d dt).Position =
          c.Position.add
            ((c.Front.mul
                (dt * c.MovementSpeed * ((if w then 1 else 0) - (if s then 1 else 0)))).add
              (c.Right.mul
                (dt * c.MovementSpeed * ((if d then 1 else 0) - (if a then 1 else 0))))) ∧
        (HandleKeyboard c w s a d dt).Front = c.Front ∧
        (HandleKeyboard c w s a d dt).Up = c.Up ∧
        (HandleKeyboard c w s a d dt).Right = c.Right ∧
        (HandleKeyboard c w s a d dt).WorldUp = c.WorldUp ∧
        (HandleKeyboard c w s a d dt).Yaw = c.Yaw ∧
        (HandleKeyboard c w s a d dt).Pitch = c.Pitch ∧
        (HandleKeyboard c w s a d dt).MovementSpeed = c.MovementSpeed ∧
        (HandleKeyboard c w s a d dt).MouseSens = c.MouseSens ∧
        (HandleKeyboard c w s a d dt).firstMouse = c.firstMouse ∧
        (HandleKeyboard c w s a d dt).lastX = c.lastX ∧
        (HandleKeyboard c w s a d dt).lastY = c.lastY) ∧
    Vec3.dot
        (((HandleKeyboard NewCamera true false false false 1).Position).sub NewCamera.Position)
        (((HandleKeyboard NewCamera true false false false 1).Position).sub NewCamera.Position) <
      Vec3.dot
        (((HandleKeyboard NewCamera true false false true 1).Position).sub NewCamera.Position)
        (((HandleKeyboard NewCamera true false false true 1).Position).sub NewCamera.Position) := by
  constructor
  · intro c w s a d dt
    obtain ⟨h1, h2, h3, h4, h5, h6, h7, h8, h9, h10, h11⟩ :=
      HandleKeyboard_fields c w s a d dt
    exact ⟨HandleKeyboard_position c w s a d dt, h1, h2, h3, h4, h5, h6, h7, h8, h9, h10, h11⟩
  · obtain ⟨hF, hR, hU⟩ := NewCamera_basis
    have hms : NewCamera.MovementSpeed = 5/2 := rfl
    rw [HandleKeyboard_position NewCamera true false false false 1,
      HandleKeyboard_position NewCamera true false false true 1, hF, hR, hms]
    norm_num [Vec3.add, Vec3.sub, Vec3.mul, Vec3.dot]

/-- C6: after every basis recomputation with worldUp (0,1,0), any yaw and any
pitch in `[-89, 89]`, the vectors front, right and up are pairwise orthogonal
and each has unit length. -/
theorem basis_remains_orthonormal (c : Camera) (hW : c.WorldUp = ⟨0, 1, 0⟩)
    (h1 : -89 ≤ c.Pitch) (h2 : c.Pitch ≤ 89) :
    ((updateCameraVectors c).Front.dot (updateCameraVectors c).Right = 0 ∧
     (updateCameraVectors c).Front.dot (updateCameraVectors c).Up = 0 ∧
     (updateCameraVectors c).Right.dot (updateCameraVectors c).Up = 0) ∧
    ((updateCameraVectors c).Front.len = 1 ∧
     (updateCameraVectors c).Right.len = 1 ∧
     (updateCameraVectors c).Up.len = 1) := by
  have hc := cos_degToRad_pos h1 h2
  obtain ⟨hF, hR, hU⟩ := updateCameraVectors_basis hW hc
  rw [hF, hR, hU]
  refine ⟨⟨?_, ?_, ?_⟩, ?_, ?_, ?_⟩
  · simp only [frontRaw, Vec3.dot]
    ring
  · simp only [frontRaw, Vec3.dot]
    linear_combination (-(Real.sin (degToRad c.Pitch) * Real.cos (degToRad c.Pitch))) *
      Real.sin_sq_add_cos_sq (degToRad c.Yaw)
  · simp only [Vec3.dot]
    ring
  · exact frontRaw_len _ _
  · rw [Vec3.len, Vec3.dot]
    rw [show -Real.sin (degToRad c.Yaw) * -Real.sin (degToRad c.Yaw) + 0 * 0 +
        Real.cos (degToRad c.Yaw) * Real.cos (degToRad c.Yaw) = 1 by
      linear_combination Real.sin_sq_add_cos_sq (degToRad c.Yaw)]
    exact Real.sqrt_one
  · exact upRaw_len _ _

/-- Witness for C6: the hypotheses hold and the conclusion is produced at the
freshly constructed camera. -/
theorem basis_remains_orthonormal_witness :
    (NewCamera.WorldUp = ⟨0, 1, 0⟩ ∧ -89 ≤ NewCamera.Pitch ∧ NewCamera.Pitch ≤ 89) ∧
    (((updateCameraVectors NewCamera).Front.dot (updateCameraVectors NewCamera).Right = 0 ∧
      (updateCameraVectors NewCamera).Front.dot (updateCameraVectors NewCamera).Up = 0 ∧
      (updateCameraVectors NewCamera).Right.dot (updateCameraVectors NewCamera).Up = 0) ∧
     ((updateCameraVectors NewCamera).Front.len = 1 ∧
      (updateCameraVectors NewCamera).Right.len = 1 ∧
      (updateCameraVectors NewCamera).Up.len = 1)) :=
  ⟨⟨rfl, (by norm_num : (-89 : ℝ) ≤ 0), (by norm_num : (0 : ℝ) ≤ 89)⟩,
   basis_remains_orthonormal NewCamera rfl
     (by norm_num : (-89 : ℝ) ≤ 0) (by norm_num : (0 : ℝ) ≤ 89)⟩

/-- C7: the FPS division is only reached with a denominator of at least 0.25
(hence nonzero), and with pitch clamped to `[-89, 89]` none of the three
normalizations inside the basis recomputation receives a zero vector. -/
theorem core_operations_total :
    (∀ (fc : FPSCounter) (t : ℚ), 1/4 ≤ t - fc.lastUpdate → t - fc.lastUpdate ≠ 0) ∧
    (∀ c : Camera, c.WorldUp = ⟨0, 1, 0⟩ → -89 ≤ c.Pitch → c.Pitch ≤ 89 →
        0 < (frontRaw c.Yaw c.Pitch).len ∧
        0 < ((updateCameraVectors c).Front.cross c.WorldUp).len ∧
        0 < ((updateCameraVectors c).Right.cross (updateCameraVectors c).Front).len) := by
  constructor
  · intro fc t h
    have hd : (0 : ℚ) < t - fc.lastUpdate := lt_of_lt_of_le (by norm_num) h
    exact hd.ne'
  · intro c hW h1 h2
    have hc := cos_degToRad_pos h1 h2
    obtain ⟨hF, hR, hU⟩ := updateCameraVectors_basis hW hc
    refine ⟨?_, ?_, ?_⟩
    · rw [frontRaw_len]
      norm_num
    · rw [hF, hW, frontRaw_cross_worldUp, rightRaw_len hc]
      exact hc
    · rw [hR, hF, right_cross_front, upRaw_len]
      norm_num

/-- Witness for C7: the hypotheses hold and the conclusions are produced at a
counter created at time 0 updated at time 1, and at the fresh camera. -/
theorem core_operations_total_witness :
    ((1 : ℚ)/4 ≤ 1 - (FPSCounter.new 0).lastUpdate ∧ 1 - (FPSCounter.new 0).lastUpdate ≠ 0) ∧
    (NewCamera.WorldUp = ⟨0, 1, 0⟩ ∧ -89 ≤ NewCamera.Pitch ∧ NewCamera.Pitch ≤ 89 ∧
     (0 < (frontRaw NewCamera.Yaw NewCamera.Pitch).len ∧
      0 < ((updateCameraVectors NewCamera).Front.cross NewCamera.WorldUp).len ∧
      0 < ((updateCameraVectors NewCamera).Right.cross
            (updateCameraVectors NewCamera).Front).len)) :=
  ⟨⟨(by norm_num : (1 : ℚ)/4 ≤ 1 - 0),
    core_operations_total.1 (FPSCounter.new 0) 1 (by norm_num : (1 : ℚ)/4 ≤ 1 - 0)⟩,
   ⟨rfl, (by norm_num : (-89 : ℝ) ≤ 0), (by norm_num : (0 : ℝ) ≤ 89),
    core_operations_total.2 NewCamera rfl
      (by norm_num : (-89 : ℝ) ≤ 0) (by norm_num : (0 : ℝ) ≤ 89)⟩⟩

set_option maxRecDepth 4000 in
set_option maxHeartbeats 4000000 in
/-- C8: ticking the meter exactly every 1/60 s from a counter created at time
0, the smoothed fps returned after 2 s (120 ticks) is within 2 % of 60; the
value an update returns always equals the stored smoothed fps. -/
theorem fps_sim_converges_to_60 :
    |(fpsSim 120).fps - 60| ≤ (2 / 100) * 60 ∧
    ∀ (fc : FPSCounter) (t : ℚ), (fc.update t).2 = ((fc.update t).1).fps := by
  constructor
  · norm_num [fpsSim, FPSCounter.update, FPSCounter.new]
  · intro fc t
    rw [FPSCounter.update_eq]
    by_cases h : t - fc.lastUpdate < 1/4
    · rw [if_pos h]
    · rw [if_neg h]

/-- C9: starting from the camera produced by NewCamera (any position), the
inline cursor callback of main.go and Camera.HandleMouseMovement of camera.go
produce identical camera states after any sequence of cursor samples. -/
theorem callback_equals_handler (p : Vec3) (moves : List (ℝ × ℝ)) :
    runCallback { NewCamera with Position := p } moves =
      runMouse { NewCamera with Position := p } moves := by
  cases moves with
  | nil => rfl
  | cons m rest =>
    show runCallback (cursorCallback { NewCamera with Position := p } m.1 m.2) rest =
      runMouse (HandleMouseMovement { NewCamera with Position := p } m.1 m.2) rest
    rw [cursorCallback_first_step]
    exact run_eq_of_tracking (HandleMouseMovement_firstMouse _ m.1 m.2) rest

/-- C10: closing a window boundary makes the smoothed fps strictly positive,
and once positive it stays positive through any further update sequence, so
the zero seeding branch can run at most once. -/
theorem fps_seed_branch_at_most_once :
    (∀ (fc : FPSCounter) (t : ℚ), 0 ≤ fc.frameCount → 0 ≤ fc.fps →
        1/4 ≤ t - fc.lastUpdate → 0 < ((fc.update t).1).fps) ∧
    (∀ (fc : FPSCounter) (ts : List ℚ), 0 ≤ fc.frameCount → 0 < fc.fps →
        0 < (fc.run ts).fps) := by
  constructor
  · intro fc t hn hf h
    rw [FPSCounter.update_eq, if_neg (not_lt.mpr h)]
    have hd : (0 : ℚ) < t - fc.lastUpdate := lt_of_lt_of_le (by norm_num) h
    have hq : (0 : ℚ) ≤ (fc.frameCount : ℚ) := by exact_mod_cast hn
    have hinst : 0 < ((fc.frameCount : ℚ) + 1) / (t - fc.lastUpdate) := by positivity
    show 0 < if fc.fps = 0 then ((fc.frameCount : ℚ) + 1) / (t - fc.lastUpdate)
             else fc.fps * (9/10) + ((fc.frameCount : ℚ) + 1) / (t - fc.lastUpdate) * (1/10)
    by_cases hz : fc.fps = 0
    · rw [if_pos hz]
      exact hinst
    · rw [if_neg hz]
      have hfp : 0 < fc.fps := lt_of_le_of_ne hf (Ne.symm hz)
      have hp1 : 0 < fc.fps * (9/10 : ℚ) := mul_pos hfp (by norm_num)
      have hp2 : 0 < ((fc.frameCount : ℚ) + 1) / (t - fc.lastUpdate) * (1/10 : ℚ) :=
        mul_pos hinst (by norm_num)
      linarith
  · intro fc ts hn hf
    exact FPSCounter.run_pos hn hf ts

/-- Witness for C10: the hypotheses hold and the conclusions are produced at a
fresh counter updated at time 1, and at a positive-fps counter run further. -/
theorem fps_seed_branch_at_most_once_witness :
    (0 ≤ (FPSCounter.new 0).frameCount ∧ 0 ≤ (FPSCounter.new 0).fps ∧
      (1 : ℚ)/4 ≤ 1 - (FPSCounter.new 0).lastUpdate ∧
      0 < (((FPSCounter.new 0).update 1).1).fps) ∧
    (0 ≤ (FPSCounter.mk 0 0 60).frameCount ∧ 0 < (FPSCounter.mk 0 0 60).fps ∧
      0 < ((FPSCounter.mk 0 0 60).run [1/2, 2]).fps) :=
  ⟨⟨le_refl 0, le_refl 0, (by norm_num : (1 : ℚ)/4 ≤ 1 - 0),
    fps_seed_branch_at_most_once.1 (FPSCounter.new 0) 1 (le_refl 0) (le_refl 0)
      (by norm_num : (1 : ℚ)/4 ≤ 1 - 0)⟩,
   ⟨le_refl 0, (by norm_num : (0 : ℚ) < 60),
    fps_seed_branch_at_most_once.2 (FPSCounter.mk 0 0 60) [1/2, 2] (le_refl 0)
      (by norm_num : (0 : ℚ) < 60)⟩⟩

end GLDemo
